import Mathlib

/-!
Verification of the freshness/deduplication engine of the OLX/OTOMOTO
Telegram monitor (`OLX_parser_drissonpage.py`).

The development shallowly embeds the pure core of the program:
the Polish temporal parser (`parse_polish_date`), the in-memory age cache
(`get_cached_ad_age` with its capacity-1000 / evict-20% policy), the SQLite
deduplication store (`add_ad_to_db`, `mark_ad_as_sent`, `check_ad_sent`,
`check_ad_exists`, `cleanup_old_ads`), the per-card send decision
(`try_send_from_preview`) and the per-source candidate loop of
`quick_check_ads` (prescan safeguard, skip of first N cards, promoted-ad
handling, consecutive-old early exit).  Browser automation and the Telegram
transport are external collaborators; their results (extracted card data,
successful delivery) are inputs of the model.  Python's `datetime`
arithmetic is abstracted by an epoch-minutes representation plus an
abstract `datetime(y, mo, d, h, mi)` constructor `MkDT` that may fail
(modelling `ValueError`).

Machine floats of the source carry only small exact quantities here
(minute counts, epoch stamps), so they are modelled by `ℚ` together with
an explicit positive-infinity sentinel mirroring `float('inf')`.
-/

/-- Model of the `float` values produced by `parse_polish_date`: either the
sentinel `float('inf')` ("infinitely old") or a finite number of minutes. -/
inductive PMin where
  | inf : PMin
  | fin (q : ℚ) : PMin
deriving DecidableEq

/-- `float > c` for a finite bound `c`: `inf > c` is true. -/
def PMin.gtQ : PMin → ℚ → Bool
  | .inf, _ => true
  | .fin q, c => decide (c < q)

/-- `float <= c` for a finite bound `c`: `inf <= c` is false. -/
def PMin.leQ : PMin → ℚ → Bool
  | .inf, _ => false
  | .fin q, c => decide (q ≤ c)

/-- Adding a finite quantity to a possibly-infinite one (`inf + d = inf`). -/
def PMin.addQ : PMin → ℚ → PMin
  | .inf, _ => .inf
  | .fin q, d => .fin (q + d)

/-! ### Python string primitives

The source manipulates `str` values with `in`, `split`, `strip`, `lower`
and regular expressions.  We model strings as `List Char` and implement the
same primitives structurally. -/

/-- `\d` of Python's `re` restricted to ASCII input (the digits appearing
in the date phrases). -/
def isDigitCh (c : Char) : Bool := c.isDigit

/-- `\w` of Python's `re` (unicode word character): ASCII alphanumerics,
underscore, and any non-ASCII character (covers the Polish letters of the
month names). -/
def isWordCh (c : Char) : Bool := c.isAlphanum || c == '_' || decide (c.val > 127)

/-- `\s` of Python's `re` / `str.strip` whitespace, on the characters that
occur in the scraped phrases. -/
def isSpaceCh (c : Char) : Bool := c == ' ' || c == '\t' || c == '\n' || c == '\r'

/-- `str.strip()`. -/
def trimL (l : List Char) : List Char :=
  ((((l.dropWhile isSpaceCh).reverse).dropWhile isSpaceCh)).reverse

/-- Split `l` at the first occurrence of `sep` (as Python `str.split` finds
occurrences: leftmost), returning the part before and the part after, or
`none` if `sep` does not occur. -/
def findSep (sep : List Char) : List Char → Option (List Char × List Char)
  | [] => if sep = [] then some ([], []) else none
  | c :: rest =>
    if sep.isPrefixOf (c :: rest) then
      some ([], (c :: rest).drop sep.length)
    else
      match findSep sep rest with
      | some (pre, post) => some (c :: pre, post)
      | none => none

/-- Python `sep in s` (for nonempty `sep`). -/
def containsSubL (l sep : List Char) : Bool := (findSep sep l).isSome

/-- Auxiliary fuelled loop of `pySplit`. -/
def pySplitAux (sep : List Char) : Nat → List Char → List (List Char)
  | 0, l => [l]
  | fuel + 1, l =>
    match findSep sep l with
    | none => [l]
    | some (pre, post) => pre :: pySplitAux sep fuel post

/-- Python `s.split(sep)` for nonempty `sep`: split at every
(left-to-right, non-overlapping) occurrence. -/
def pySplit (sep l : List Char) : List (List Char) :=
  pySplitAux sep (l.length + 1) l

/-- Python `s.split(sep)[1]` (the source only evaluates it when `sep` is
known to occur, so the index is in range). -/
def pyIndex1 (sep l : List Char) : List Char :=
  (pySplit sep l).getD 1 []

/-- Digits to the natural number they denote (`int` on a digit string). -/
def toNatDigits (l : List Char) : Nat :=
  l.foldl (fun acc c => acc * 10 + (c.toNat - 48)) 0

/-- Python `int(s)`: optional surrounding whitespace, optional sign, at
least one digit; anything else raises `ValueError`, modelled as `none`. -/
def pyInt (s : List Char) : Option Int :=
  match trimL s with
  | '-' :: ds => if ds ≠ [] ∧ ds.all isDigitCh then some (-(toNatDigits ds : Int)) else none
  | '+' :: ds => if ds ≠ [] ∧ ds.all isDigitCh then some ((toNatDigits ds : Int)) else none
  | ds => if ds ≠ [] ∧ ds.all isDigitCh then some ((toNatDigits ds : Int)) else none

/-! ### `datetime` abstraction

`datetime.now()` is modelled by its epoch-minute stamp together with the
fields the parser reads (`midnight` is the epoch-minute stamp of
`now.replace(hour=0, minute=0, second=0, microsecond=0)`).  The
`datetime(year, month, day, hour, minute)` constructor is an abstract
parameter returning the epoch-minute stamp of that calendar point, or
`none` for the `ValueError` of an invalid date. -/

structure PyDateTime where
  epochMinutes : ℚ
  midnight : ℚ
  year : Int
  month : Nat
deriving DecidableEq

/-- Abstract `datetime(year, month, day, hour, minute)` returning epoch
minutes, `none` on `ValueError`. -/
def MkDT : Type := Int → Nat → Nat → Nat → Nat → Option ℚ

/-- `now.replace(hour=h, minute=m, second=0, microsecond=0)` — fails
(`ValueError`) outside the valid ranges. -/
def replaceHM (now : PyDateTime) (h m : Int) : Option ℚ :=
  if 0 ≤ h ∧ h < 24 ∧ 0 ≤ m ∧ m < 60 then some (now.midnight + 60 * h + m) else none

/-- `POLISH_MONTHS` of the source, as an ordered association list. -/
def polishMonthsL : List (List Char × Nat) :=
  [("stycznia".data, 1), ("lutego".data, 2), ("marca".data, 3),
   ("kwietnia".data, 4), ("maja".data, 5), ("czerwca".data, 6),
   ("lipca".data, 7), ("sierpnia".data, 8), ("września".data, 9),
   ("października".data, 10), ("listopada".data, 11), ("grudnia".data, 12)]

/-- `POLISH_MONTHS.get(month_name, default)`. -/
def monthsLookup (w : List Char) : Option Nat :=
  (polishMonthsL.find? (fun p => decide (p.1 = w))).map (·.2)

/-! ### The three regular expressions of `parse_polish_date`

`re.search` tries each start position left to right; at a given start the
patterns below are deterministic because their adjacent character classes
(`\d`, `\s`, `\w`) make greedy maximal runs the unique choice. -/

/-- One attempt of `re.search(r'(\d+)\s+(\w+)\s+(\d{4})', ·)` anchored at
the head of `l`: digits, whitespace, a word, whitespace, four digits. -/
def matchDMYYat (l : List Char) : Option (List Char × List Char × List Char) :=
  let ds := l.takeWhile isDigitCh
  if ds = [] then none else
  let r1 := l.dropWhile isDigitCh
  let sp1 := r1.takeWhile isSpaceCh
  if sp1 = [] then none else
  let r2 := r1.dropWhile isSpaceCh
  let wd := r2.takeWhile isWordCh
  if wd = [] then none else
  let r3 := r2.dropWhile isWordCh
  let sp2 := r3.takeWhile isSpaceCh
  if sp2 = [] then none else
  let r4 := r3.dropWhile isSpaceCh
  let ys := r4.takeWhile isDigitCh
  if ys.length ≥ 4 then some (ds, wd, ys.take 4) else none

/-- One attempt of `re.search(r'(\d+)\s+(\w+)(?:\s+(\d{4}))?', ·)` anchored
at the head of `l`; the year group is optional. -/
def matchDMYat (l : List Char) : Option (List Char × List Char × Option (List Char)) :=
  let ds := l.takeWhile isDigitCh
  if ds = [] then none else
  let r1 := l.dropWhile isDigitCh
  let sp1 := r1.takeWhile isSpaceCh
  if sp1 = [] then none else
  let r2 := r1.dropWhile isSpaceCh
  let wd := r2.takeWhile isWordCh
  if wd = [] then none else
  let r3 := r2.dropWhile isWordCh
  let sp2 := r3.takeWhile isSpaceCh
  if sp2 = [] then some (ds, wd, none) else
  let r4 := r3.dropWhile isSpaceCh
  let ys := r4.takeWhile isDigitCh
  if ys.length ≥ 4 then some (ds, wd, some (ys.take 4)) else some (ds, wd, none)

/-- One attempt of `re.search(r'(\d{1,2}):(\d{1,2})', ·)` anchored at the
head of `l`.  A digit run of length ≥ 3 before the colon cannot match at
this position (both the two- and one-digit readings leave a digit before
the `:`), matching the backtracking behaviour of the engine. -/
def matchTimeAt (l : List Char) : Option (Nat × Nat) :=
  let ds := l.takeWhile isDigitCh
  if ds.length = 1 ∨ ds.length = 2 then
    match l.dropWhile isDigitCh with
    | ':' :: r2 =>
      let ds2 := r2.takeWhile isDigitCh
      if ds2 = [] then none else some (toNatDigits ds, toNatDigits (ds2.take 2))
    | _ => none
  else none

/-- `re.search`: try the anchored matcher at every start position, leftmost
first. -/
def searchFrom (f : List Char → Option α) : List Char → Option α
  | [] => f []
  | l@(_ :: t) =>
    match f l with
    | some r => some r
    | none => searchFrom f t

/-! ### `parse_polish_date` -/

/-- `MAX_AD_AGE_MINUTES = 50` (the freshness window). -/
def MAX_AD_AGE_MINUTES : ℚ := 50

/-- `VERY_FRESH_AD_MINUTES = 10`. -/
def VERY_FRESH_AD_MINUTES : ℚ := 10

/-- The body of `parse_polish_date` after lowercasing and stripping: the
four grammar branches, every failure path returning `float('inf')`. -/
def parseCore (s : List Char) (now : PyDateTime) (mk : MkDT) : PMin :=
  if containsSubL s "dzisiaj o".data then
    -- "Dzisiaj o HH:MM": today at the given time, minus a day if in the future
    match pySplit ":".data (trimL (pyIndex1 "dzisiaj o".data s)) with
    | [a, b] =>
      match pyInt a, pyInt b with
      | some h, some m =>
        match replaceHM now h m with
        | some pub =>
          let pub := if now.epochMinutes < pub then pub - 1440 else pub
          .fin (now.epochMinutes - pub)
        | none => .inf
      | _, _ => .inf
    | _ => .inf
  else if containsSubL s "wczoraj o".data then
    -- "Wczoraj o HH:MM": yesterday at the given time
    match pySplit ":".data (trimL (pyIndex1 "wczoraj o".data s)) with
    | [a, b] =>
      match pyInt a, pyInt b with
      | some h, some m =>
        match replaceHM now h m with
        | some pub => .fin (now.epochMinutes - (pub - 1440))
        | none => .inf
      | _, _ => .inf
    | _ => .inf
  else if containsSubL s "odświeżono dnia".data || containsSubL s "odświeżono".data then
    -- "Odświeżono dnia DD miesiąca YYYY"
    let sep := if containsSubL s "odświeżono dnia".data then "odświeżono dnia".data
               else "odświeżono".data
    match searchFrom matchDMYYat (trimL (pyIndex1 sep s)) with
    | some (ds, wd, ys) =>
      let day := toNatDigits ds
      let year : Int := (toNatDigits ys : Int)
      let month := (monthsLookup wd).getD now.month
      match mk year month day 0 0 with
      | some pub => .fin (now.epochMinutes - pub)
      | none => .inf
    | none => .inf
  else if polishMonthsL.any (fun p => containsSubL s p.1) then
    -- "DD miesiąca [YYYY] [HH:MM]"
    match searchFrom matchDMYat s with
    | some (ds, wd, yOpt) =>
      let day := toNatDigits ds
      let year : Int := match yOpt with
        | some ys => (toNatDigits ys : Int)
        | none => now.year
      let month := (monthsLookup wd).getD now.month
      let pub? := match searchFrom matchTimeAt s with
        | some (h, mi) => mk year month day h mi
        | none => mk year month day 0 0
      match pub? with
      | none => .inf
      | some pub =>
        if now.epochMinutes < pub ∧ yOpt = none then
          -- future date without explicit year: assume last year (midnight)
          match mk (now.year - 1) month day 0 0 with
          | some pub2 => .fin (now.epochMinutes - pub2)
          | none => .inf
        else .fin (now.epochMinutes - pub)
    | none => .inf
  else .inf

/-- `parse_polish_date(date_str)`: `None`/empty input gives `float('inf')`;
otherwise the input is lowercased, stripped and dispatched on the four
grammars; every arithmetic or parsing failure yields `float('inf')` (the
Python code catches every exception of the branch bodies). -/
def parsePolishDate (dateStr : Option String) (now : PyDateTime) (mk : MkDT) : PMin :=
  match dateStr with
  | none => .inf
  | some raw =>
    if raw.data = [] then .inf
    else parseCore (trimL (raw.data.map Char.toLower)) now mk

/-- The disjunction of the four branch guards of `parse_polish_date`: a
phrase on which it is `false` matches none of the four grammars. -/
def recognizesDateGrammar (s : List Char) : Bool :=
  containsSubL s "dzisiaj o".data || containsSubL s "wczoraj o".data ||
  (containsSubL s "odświeżono dnia".data || containsSubL s "odświeżono".data) ||
  polishMonthsL.any (fun p => containsSubL s p.1)

/-! ### `extract_ad_id_from_url` -/

/-- One attempt of `re.search(r'ID([a-zA-Z0-9]+)', ·)` anchored at the
head: the literal characters `I`, `D` followed by at least one ASCII
alphanumeric (greedy maximal run). -/
def matchIdAt : List Char → Option (List Char)
  | 'I' :: 'D' :: rest =>
    let xs := rest.takeWhile (fun c => c.isAlphanum)
    if xs = [] then none else some xs
  | _ => none

/-- `extract_ad_id_from_url(url)`: the first `ID<alnum+>` token of the
URL, or `None`. -/
def extractAdIdFromUrl (url : String) : Option String :=
  (searchFrom matchIdAt url.data).map (fun l => String.mk l)

/-! ### Association lists with Python-`dict` / SQL-row semantics

`PUBLICATION_DATE_CACHE` is a `dict` (insertion ordered); the `ads` table
is keyed by the `link` primary key.  Both are modelled as association
lists: update-in-place for an existing key, append for a new one. -/

section AssocList

variable {κ : Type} [DecidableEq κ] {α : Type}

/-- Key lookup (first matching entry). -/
def lookupA : List (κ × α) → κ → Option α
  | [], _ => none
  | (k, v) :: t, x => if x = k then some v else lookupA t x

/-- `d[k] = v` on a `dict`: replace in place if the key exists, append
otherwise. -/
def dictInsert : List (κ × α) → κ → α → List (κ × α)
  | [], k, v => [(k, v)]
  | (k', v') :: t, k, v =>
    if k = k' then (k, v) :: t else (k', v') :: dictInsert t k v

end AssocList

/-! ### The publication-date cache (`get_cached_ad_age`) -/

/-- `MAX_CACHE_SIZE = 1000`. -/
def MAX_CACHE_SIZE : Nat := 1000

/-- A value of `PUBLICATION_DATE_CACHE`:
`{date_str, minutes_ago, last_check_time}`. -/
structure CacheEntry where
  date_str : Option String
  minutes_ago : PMin
  last_check_time : ℚ
deriving DecidableEq

/-- Stable insertion of one entry into a list ascending by
`last_check_time` (the new entry goes after existing equal stamps). -/
def insEntry {κ : Type} (x : κ × CacheEntry) :
    List (κ × CacheEntry) → List (κ × CacheEntry)
  | [] => [x]
  | y :: ys =>
    if x.2.last_check_time < y.2.last_check_time then x :: y :: ys
    else y :: insEntry x ys

/-- `sorted(cache.items(), key=lambda x: x[1]['last_check_time'])`:
Python's `sorted` is a stable sort; insertion sort is stable. -/
def sortByTime {κ : Type} (c : List (κ × CacheEntry)) : List (κ × CacheEntry) :=
  c.foldr insEntry []

/-- The eviction pass of `get_cached_ad_age`: remove the
`int(MAX_CACHE_SIZE * 0.2) = 200` entries that are oldest by
`last_check_time` (deletion keeps the insertion order of the rest). -/
def evictOldest {κ : Type} [DecidableEq κ]
    (c : List (κ × CacheEntry)) : List (κ × CacheEntry) :=
  let removeKeys := ((sortByTime c).take (MAX_CACHE_SIZE * 2 / 10)).map Prod.fst
  c.filter (fun kv => decide (kv.1 ∉ removeKeys))

/-- `get_cached_ad_age(ad_id, date_str)`.  `nowSec` is `time.time()` in
seconds.  A cache hit fresher than 30 minutes returns the cached minutes
plus the elapsed cache age; otherwise the date is parsed, stored under a
truthy `ad_id`, and the cache is evicted when its size exceeds
`MAX_CACHE_SIZE`.  (An `ad_id` is `None` or a nonempty string in the
source, so Python truthiness is `isSome` here.) -/
def getCachedAdAge {κ : Type} [DecidableEq κ]
    (cache : List (κ × CacheEntry)) (adId : Option κ) (dateStr : Option String)
    (nowSec : ℚ) (now : PyDateTime) (mk : MkDT) :
    PMin × List (κ × CacheEntry) :=
  let cached : Option PMin :=
    match adId with
    | some k =>
      match lookupA cache k with
      | some e =>
        let cacheAge := (nowSec - e.last_check_time) / 60
        if cacheAge < 30 then some (e.minutes_ago.addQ cacheAge) else none
      | none => none
    | none => none
  match cached with
  | some v => (v, cache)
  | none =>
    let minutes := parsePolishDate dateStr now mk
    match adId with
    | some k =>
      let c1 := dictInsert cache k ⟨dateStr, minutes, nowSec⟩
      let c2 := if c1.length > MAX_CACHE_SIZE then evictOldest c1 else c1
      (minutes, c2)
    | none => (minutes, cache)

/-! ### The deduplication store (`ads` table) -/

/-- A row of the `ads` table (minus the `link` primary key, which is the
association-list key). -/
structure AdRecord where
  title : String
  ad_id : Option String
  site : String
  date_found : ℚ
  date_published : Option String
  expiry_date : ℚ
  sent_to_telegram : Bool
deriving DecidableEq

/-- `timedelta(days=7)` in minutes. -/
def DAYS7 : ℚ := 7 * 24 * 60

/-- The `ads` table: `link -> row`. -/
abbrev AdDb : Type := List (String × AdRecord)

/-- `add_ad_to_db(link, title, site, ad_id, date_published)` (non-exception
path).  Existing link: refresh `expiry_date` only, return
`(False, was_sent)`.  New link: insert with `sent_to_telegram = 0`, return
`(True, False)`. -/
def addAdToDb (db : AdDb) (nowMin : ℚ) (link title site : String)
    (adId datePublished : Option String) : (Bool × Bool) × AdDb :=
  let expiry := nowMin + DAYS7
  match lookupA db link with
  | some r =>
    ((false, r.sent_to_telegram), dictInsert db link { r with expiry_date := expiry })
  | none =>
    ((true, false), db ++ [(link, ⟨title, adId, site, nowMin, datePublished, expiry, false⟩)])

/-- `mark_ad_as_sent(link)` (non-exception path): `UPDATE ads SET
sent_to_telegram = 1 WHERE link = ?`; returns `True` whether or not a row
matched. -/
def markAdAsSent (db : AdDb) (link : String) : Bool × AdDb :=
  (true, db.map (fun kv =>
    if kv.1 = link then (kv.1, { kv.2 with sent_to_telegram := true }) else kv))

/-- `check_ad_sent(link)` (non-exception path): the Python function returns
`bool(row.sent_to_telegram)` when a row exists and falls off the end of the
function — returning `None` — when no row exists. -/
def checkAdSent (db : AdDb) (link : String) : Option Bool :=
  (lookupA db link).map (·.sent_to_telegram)

/-- `check_ad_exists(link)`. -/
def checkAdExists (db : AdDb) (link : String) : Bool :=
  (lookupA db link).isSome

/-- `cleanup_old_ads()`: skipped when the last sweep is younger than 7
days; otherwise deletes every row with `expiry_date < now` and stamps the
sweep time.  Returns (ran?, table, last-sweep stamp). -/
def cleanupOldAds (db : AdDb) (lastCleanup nowMin : ℚ) : Bool × AdDb × ℚ :=
  if nowMin - lastCleanup < DAYS7 then (false, db, lastCleanup)
  else (true, db.filter (fun kv => decide (¬ kv.2.expiry_date < nowMin)), nowMin)

/-- The persistent state the store operations act on: the `ads` table and
the `last_cleanup` setting. -/
structure StoreState where
  db : AdDb
  lastCleanup : ℚ

/-- One invocation of a store operation, with the wall-clock instants it
reads from `datetime.now()`. -/
inductive StoreOp where
  | add (nowMin : ℚ) (link title site : String) (adId datePublished : Option String)
  | mark (link : String)
  | check (link : String)
  | cleanup (nowMin : ℚ)

/-- State transition of one store operation (`check` reads only). -/
def applyOp (s : StoreState) (op : StoreOp) : StoreState :=
  match op with
  | .add now l t st a d => { s with db := (addAdToDb s.db now l t st a d).2 }
  | .mark l => { s with db := (markAdAsSent s.db l).2 }
  | .check _ => s
  | .cleanup now =>
    let r := cleanupOldAds s.db s.lastCleanup now
    { db := r.2.1, lastCleanup := r.2.2 }

/-! ### The per-source scan (`extract_preview_data`, `try_send_from_preview`,
`quick_check_ads`)

Browser automation is an external collaborator: a card either fails
extraction (no link element / empty href) or yields the raw fields below.
What the repository's own code does with those fields — age computation
via the cache, dedup check, send decision, the candidate loop with its
prescan safeguard, promoted-ad cap and early exit — is modelled here. -/

/-- The raw fields extraction reads off one listing card. -/
structure RawPreview where
  link : String
  title : String
  ad_id : Option String
  date_str : Option String
  image : Option String
  site : String
deriving DecidableEq

/-- One candidate card: its promoted flag (`is_promoted_card`) and the
extraction outcome (`none` models the `return None` paths of
`extract_preview_data`). -/
structure RawCard where
  promoted : Bool
  extracted : Option RawPreview
deriving DecidableEq

/-- The dict `extract_preview_data` returns: the raw fields plus
`minutes_ago`, which is present exactly when the date string was truthy. -/
structure PreviewData where
  link : String
  title : String
  ad_id : Option String
  publication_date : Option String
  image : Option String
  site : String
  minutes_ago : Option PMin
deriving DecidableEq

/-- Python truthiness of an optional string (`None` and `""` are falsy). -/
def truthyStr : Option String → Bool
  | none => false
  | some s => decide (s ≠ "")

/-- The clocks and calendar one scan runs against: `time.time()` seconds
for the cache, `datetime.now()` for the parser and the store. -/
structure ScanEnv where
  nowSec : ℚ
  nowDT : PyDateTime
  mkDT : MkDT

/-- The cache keyed by the string ad ids of the scan pipeline. -/
abbrev StrCache : Type := List (String × CacheEntry)

/-- `extract_preview_data(card)` given the raw card fields: builds the
preview dict and computes `minutes_ago` through the cache when a date
string is present. -/
def extractPreviewData (env : ScanEnv) (cache : StrCache) (rc : RawCard) :
    Option PreviewData × StrCache :=
  match rc.extracted with
  | none => (none, cache)
  | some rp =>
    if truthyStr rp.date_str then
      let r := getCachedAdAge cache rp.ad_id rp.date_str env.nowSec env.nowDT env.mkDT
      (some ⟨rp.link, rp.title, rp.ad_id, rp.date_str, rp.image, rp.site, some r.1⟩, r.2)
    else
      (some ⟨rp.link, rp.title, rp.ad_id, rp.date_str, rp.image, rp.site, none⟩, cache)

/-- `send_to_telegram(ad)` (non-exception path): under the lock it marks
the link as sent, dispatches the delivery on a daemon thread, and returns
`True`. -/
def sendToTelegram (db : AdDb) (link : String) : Bool × AdDb :=
  ((markAdAsSent db link).1, (markAdAsSent db link).2)

/-- The body of `try_send_from_preview` after extraction succeeded:
recompute the age if missing, skip with `is_old=True` when the age is
unknown or above `MAX_AD_AGE_MINUTES`, otherwise consult the dedup store
(adding a new link) and send.  Returns `((sent, is_old), cache, db)`. -/
def trySendCore (env : ScanEnv) (cache : StrCache) (db : AdDb)
    (p : PreviewData) : (Bool × Bool) × StrCache × AdDb :=
  let mc : Option PMin × StrCache :=
    match p.minutes_ago with
    | some m => (some m, cache)
    | none =>
      if truthyStr p.publication_date then
        let r := getCachedAdAge cache p.ad_id p.publication_date env.nowSec env.nowDT env.mkDT
        (some r.1, r.2)
      else (none, cache)
  let cache := mc.2
  match mc.1 with
  | none => ((false, true), cache, db)
  | some m =>
    if m.gtQ MAX_AD_AGE_MINUTES then ((false, true), cache, db)
    else if checkAdExists db p.link then
      if (checkAdSent db p.link).getD false then ((false, false), cache, db)
      else
        let r := sendToTelegram db p.link
        ((r.1, false), cache, r.2)
    else
      let a := addAdToDb db env.nowDT.epochMinutes p.link p.title p.site p.ad_id p.publication_date
      let r := sendToTelegram a.2 p.link
      ((r.1, false), cache, r.2)

/-- `try_send_from_preview(card)` (non-exception path): extraction failure
returns `(False, False)`; otherwise the core above runs. -/
def trySendFromPreview (env : ScanEnv) (cache : StrCache) (db : AdDb)
    (rc : RawCard) : (Bool × Bool) × StrCache × AdDb :=
  match extractPreviewData env cache rc with
  | (none, c) => ((false, false), c, db)
  | (some p, c) => trySendCore env c db p

/-- `SKIP_FIRST_N_ADS = 2`. -/
def SKIP_FIRST_N_ADS : Nat := 2

/-- `MAX_CARDS_TO_CHECK = 13`. -/
def MAX_CARDS_TO_CHECK : Nat := 13

/-- `CONSECUTIVE_OLD_COUNT = 3`. -/
def CONSECUTIVE_OLD_COUNT : Nat := 3

/-- `EARLY_EXIT_ON_OLD = True`. -/
def EARLY_EXIT_ON_OLD : Bool := true

/-- `MAX_PROMO_TO_CHECK = 3` (local to `quick_check_ads`). -/
def MAX_PROMO_TO_CHECK : Nat := 3

/-- The loop state of `quick_check_ads`, plus a ghost trace `evalLog`
recording the absolute listing position of every card the iterating loop
actually examined (called `extract_preview_data` on, directly or through
`try_send_from_preview`). -/
structure ScanState where
  cache : StrCache
  db : AdDb
  sent_count : Nat
  consecutive_old_count : Nat
  promo_processed : Nat
  fresh_found : Bool
  evalLog : List Nat
deriving DecidableEq

/-- The candidate loop of `quick_check_ads` (`for idx, card in
enumerate(cards_to_process)`), with `idx` the absolute listing position.
A promoted card beyond the promoted cap is skipped without examination;
an examined promoted card is sent only when fresh, and only successful
promoted sends advance `promo_processed`.  A regular card goes through
`try_send_from_preview`; after updating the counters the loop breaks when
`(EARLY_EXIT_ON_OLD and is_old) or consecutive_old_count >=
CONSECUTIVE_OLD_COUNT`. -/
def processCards (env : ScanEnv) : Nat → ScanState → List RawCard → ScanState
  | _, s, [] => s
  | idx, s, c :: rest =>
    if c.promoted then
      if s.promo_processed ≥ MAX_PROMO_TO_CHECK then
        processCards env (idx + 1) s rest
      else
        let e := extractPreviewData env s.cache c
        let s1 := { s with cache := e.2, evalLog := s.evalLog ++ [idx] }
        let s2 :=
          match e.1 with
          | some p =>
            if ((p.minutes_ago).getD PMin.inf).leQ MAX_AD_AGE_MINUTES then
              let r := sendToTelegram s1.db p.link
              if r.1 then
                { s1 with db := r.2, sent_count := s1.sent_count + 1,
                          promo_processed := s1.promo_processed + 1,
                          consecutive_old_count := 0, fresh_found := true }
              else { s1 with db := r.2 }
            else s1
          | none => s1
        processCards env (idx + 1) s2 rest
    else
      let t := trySendFromPreview env s.cache s.db c
      let sent := t.1.1
      let is_old := t.1.2
      let s1 := { s with cache := t.2.1, db := t.2.2, evalLog := s.evalLog ++ [idx] }
      let s2 :=
        if sent then
          { s1 with sent_count := s1.sent_count + 1, fresh_found := true,
                    consecutive_old_count := 0 }
        else if is_old then
          { s1 with consecutive_old_count := s1.consecutive_old_count + 1 }
        else
          { s1 with consecutive_old_count := 0 }
      if (EARLY_EXIT_ON_OLD && is_old) || s2.consecutive_old_count ≥ CONSECUTIVE_OLD_COUNT then
        s2
      else
        processCards env (idx + 1) s2 rest

/-- The safeguard prescan of `quick_check_ads`: walk the first
`min(10, len(all_cards))` cards and flag when a position below
`SKIP_FIRST_N_ADS` carries an age within the freshness window. -/
def prescanFresh (env : ScanEnv) : Nat → StrCache → List RawCard → Bool → Bool × StrCache
  | _, cache, [], acc => (acc, cache)
  | i, cache, c :: rest, acc =>
    let e := extractPreviewData env cache c
    let acc' :=
      match e.1 with
      | some p =>
        acc || (decide (i < SKIP_FIRST_N_ADS) &&
                ((p.minutes_ago).getD PMin.inf).leQ MAX_AD_AGE_MINUTES)
      | none => acc
    prescanFresh env (i + 1) e.2 rest acc'

/-- The candidate-processing phase of `quick_check_ads` (after the page
yielded `all_cards`): prescan safeguard, skip of the first
`SKIP_FIRST_N_ADS` cards unless the safeguard fired, truncation to
`MAX_CARDS_TO_CHECK`, then the iterating loop. -/
def quickCheckAds (env : ScanEnv) (cache : StrCache) (db : AdDb)
    (allCards : List RawCard) : ScanState :=
  let pre := prescanFresh env 0 cache (allCards.take 10) false
  let skipCount := if pre.1 then 0 else SKIP_FIRST_N_ADS
  let cards := (allCards.drop skipCount).take MAX_CARDS_TO_CHECK
  processCards env skipCount
    ⟨pre.2, db, 0, 0, 0, false, []⟩ cards

/-! ### Interleaving model of the check-then-mark path

Two scan threads process the same link concurrently (the link is in the
store, not yet sent).  Each runs the source's sequence: `check_ad_sent`
with no lock held (`try_send_from_preview`), then — when the flag was
observed false — `send_to_telegram`, which acquires the global `lock`,
calls `mark_ad_as_sent`, releases, and dispatches the delivery after the
mark.  Program counters: 0 = about to check, 1 = about to acquire,
2 = holds lock / about to mark, 3 = about to release, 4 = about to
deliver, 5 = done. -/

structure ThreadSt where
  pc : Nat
  observed : Option Bool
deriving DecidableEq

/-- Shared state of the race: the `sent_to_telegram` flag of the one link,
the lock owner, the two threads, and which threads delivered. -/
structure RaceConfig where
  sent : Bool
  lockOwner : Option (Fin 2)
  thread0 : ThreadSt
  thread1 : ThreadSt
  delivered0 : Bool
  delivered1 : Bool
deriving DecidableEq

/-- One atomic step of thread `tid` (an acquire attempt on a held lock
blocks: no state change). -/
def raceStep (cfg : RaceConfig) (tid : Fin 2) : RaceConfig :=
  let t := if tid = 0 then cfg.thread0 else cfg.thread1
  let setT := fun (cfg' : RaceConfig) (t' : ThreadSt) =>
    if tid = 0 then { cfg' with thread0 := t' } else { cfg' with thread1 := t' }
  match t.pc with
  | 0 => -- check_ad_sent, outside any lock
    setT cfg { t with pc := if cfg.sent then 5 else 1, observed := some cfg.sent }
  | 1 => -- `with lock:` entry
    match cfg.lockOwner with
    | none => setT { cfg with lockOwner := some tid } { t with pc := 2 }
    | some _ => cfg
  | 2 => -- mark_ad_as_sent, inside the lock
    setT { cfg with sent := true } { t with pc := 3 }
  | 3 => -- `with lock:` exit
    setT { cfg with lockOwner := none } { t with pc := 4 }
  | 4 => -- async delivery, after the mark, outside the lock
    if tid = 0 then { cfg with delivered0 := true, thread0 := { t with pc := 5 } }
    else { cfg with delivered1 := true, thread1 := { t with pc := 5 } }
  | _ => cfg

/-- Run a schedule (a list of thread ids) from a configuration. -/
def raceRun (cfg : RaceConfig) (sched : List (Fin 2)) : RaceConfig :=
  sched.foldl raceStep cfg

/-- Initial configuration: link recorded, not yet sent, lock free. -/
def raceInit : RaceConfig :=
  ⟨false, none, ⟨0, none⟩, ⟨0, none⟩, false, false⟩

/-- The interleaving the unlocked check admits: both threads check before
either acquires the lock. -/
def raceSched : List (Fin 2) := [0, 1, 0, 0, 0, 0, 1, 1, 1, 1]

/-! ### Concrete scenarios

A fixed wall clock for the scenarios: `datetime.now()` is 12:00, i.e. 720
epoch minutes with midnight at 0 (`time.time()` taken as 0; the calendar
constructor is never consulted by the "dzisiaj o" grammar these scenarios
use). -/

/-- Noon of the scenario day. -/
def scNow : PyDateTime := ⟨720, 0, 2025, 5⟩

/-- Calendar constructor for the scenarios (never reached by the
"dzisiaj o" phrases they use). -/
def scMk : MkDT := fun _ _ _ _ _ => none

/-- The scenario environment. -/
def scEnv : ScanEnv := ⟨0, scNow, scMk⟩

/-- A non-promoted candidate card publishing at the given time phrase. -/
def mkCard (link : String) (date : String) : RawCard :=
  ⟨false, some ⟨link, "t" ++ link, some ("id" ++ link), some date, none, "OLX"⟩⟩

/-- A promoted candidate card publishing at the given time phrase. -/
def mkPromoCard (link : String) (date : String) : RawCard :=
  ⟨true, some ⟨link, "t" ++ link, some ("id" ++ link), some date, none, "OLX"⟩⟩

/-- The early-exit scenario of the specification: candidate ages
`[5, 200, 200, 200, 5]` minutes ("11:55" and "08:40" against a 12:00
clock). -/
def c3Cards : List RawCard :=
  [mkCard "a" "dzisiaj o 11:55", mkCard "b" "dzisiaj o 08:40",
   mkCard "c" "dzisiaj o 08:40", mkCard "d" "dzisiaj o 08:40",
   mkCard "e" "dzisiaj o 11:55"]

/-- The result of the early-exit scenario scan (empty store and cache). -/
def c3Scan : ScanState := quickCheckAds scEnv [] [] c3Cards

/-- Six promoted cards, all 200 minutes old. -/
def c4Cards : List RawCard :=
  [mkPromoCard "p0" "dzisiaj o 08:40", mkPromoCard "p1" "dzisiaj o 08:40",
   mkPromoCard "p2" "dzisiaj o 08:40", mkPromoCard "p3" "dzisiaj o 08:40",
   mkPromoCard "p4" "dzisiaj o 08:40", mkPromoCard "p5" "dzisiaj o 08:40"]

/-- The result of the promoted-cap scenario scan. -/
def c4Scan : ScanState := quickCheckAds scEnv [] [] c4Cards

/-- A candidate whose computed age is exactly 50.0 minutes ("11:10"
against the 12:00 clock). -/
def c7Card : RawCard := mkCard "x" "dzisiaj o 11:10"

/-! ### The eviction scenario: 1001 distinct identities

Identities are modelled by the naturals `0, …, 1000`, inserted in that
order with strictly increasing `time.time()` stamps (identity `i` is
inserted at second `i`); no date string is attached (the parsed value is
irrelevant to eviction). -/

/-- One insertion of the eviction scenario. -/
def c6Step (c : List (Nat × CacheEntry)) (i : Nat) : List (Nat × CacheEntry) :=
  (getCachedAdAge c (some i) none (i : ℚ) scNow scMk).2

/-- The cache produced by the first `n` insertions. -/
def c6Cache (n : Nat) : List (Nat × CacheEntry) :=
  (List.range n).foldl c6Step []

/-- The entry identity `i` carries after its insertion. -/
def c6Entry (i : Nat) : CacheEntry := ⟨none, PMin.inf, (i : ℚ)⟩

/-! ### Fixtures for concrete instantiations -/

/-- A stored, already-notified record. -/
def c1wRec : AdRecord := ⟨"t", none, "OLX", 0, none, 100, true⟩

/-- A one-row store state holding the notified record. -/
def c1wState : StoreState := ⟨[("l", c1wRec)], 0⟩

/-! ### Association-list lemmas -/

section AssocLemmas

variable {κ : Type} [DecidableEq κ] {α : Type}

theorem lookupA_dictInsert (l : List (κ × α)) (k x : κ) (v : α) :
    lookupA (dictInsert l k v) x = if x = k then some v else lookupA l x := by
  induction l with
  | nil => simp [dictInsert, lookupA]
  | cons hd t ih =>
    obtain ⟨k', v'⟩ := hd
    by_cases hk : k = k'
    · subst hk
      by_cases hx : x = k <;> simp [dictInsert, lookupA, hx]
    · by_cases hx : x = k'
      · subst hx
        simp [dictInsert, lookupA, hk, Ne.symm hk]
      · simp [dictInsert, lookupA, hk, hx, ih]

theorem dictInsert_absent (l : List (κ × α)) (k : κ) (v : α)
    (h : lookupA l k = none) : dictInsert l k v = l ++ [(k, v)] := by
  induction l with
  | nil => simp [dictInsert]
  | cons hd t ih =>
    obtain ⟨k', v'⟩ := hd
    simp only [lookupA] at h
    by_cases hk : k = k'
    · simp [hk] at h
    · simp only [dictInsert, if_neg hk, List.cons_append, List.cons.injEq, true_and]
      exact ih (by simpa [hk] using h)

theorem lookupA_append_left (l₁ l₂ : List (κ × α)) (x : κ) (v : α)
    (h : lookupA l₁ x = some v) : lookupA (l₁ ++ l₂) x = some v := by
  induction l₁ with
  | nil => simp [lookupA] at h
  | cons hd t ih =>
    obtain ⟨k', v'⟩ := hd
    by_cases hx : x = k'
    · simpa [lookupA, hx] using h
    · simp only [lookupA, if_neg hx] at h ⊢
      exact ih h

theorem lookupA_append_right (l₁ l₂ : List (κ × α)) (x : κ)
    (h : lookupA l₁ x = none) : lookupA (l₁ ++ l₂) x = lookupA l₂ x := by
  induction l₁ with
  | nil => simp [lookupA]
  | cons hd t ih =>
    obtain ⟨k', v'⟩ := hd
    by_cases hx : x = k'
    · simp [lookupA, hx] at h
    · simp only [lookupA, if_neg hx] at h ⊢
      exact ih h

theorem lookupA_not_mem (l : List (κ × α)) (x : κ)
    (h : x ∉ l.map Prod.fst) : lookupA l x = none := by
  induction l with
  | nil => rfl
  | cons hd t ih =>
    obtain ⟨k', v'⟩ := hd
    simp only [List.map_cons, List.mem_cons] at h
    push_neg at h
    simp only [lookupA, if_neg h.1]
    exact ih h.2

theorem lookupA_map_update (l : List (κ × α)) (k x : κ) (f : α → α) :
    lookupA (l.map fun kv => if kv.1 = k then (kv.1, f kv.2) else kv) x =
      if x = k then (lookupA l x).map f else lookupA l x := by
  induction l with
  | nil => by_cases hx : x = k <;> simp [lookupA, hx]
  | cons hd t ih =>
    obtain ⟨k', v'⟩ := hd
    rw [List.map_cons]
    by_cases hk : k' = k
    · rw [show (if (k', v').1 = k then ((k', v').1, f (k', v').2) else (k', v'))
            = (k', f v') from by simp [hk]]
      by_cases hx : x = k'
      · subst hx
        simp [lookupA, hk]
      · have hxk : x ≠ k := fun hc => hx (hc.trans hk.symm)
        simp [lookupA, hx, hxk, ih]
    · rw [show (if (k', v').1 = k then ((k', v').1, f (k', v').2) else (k', v'))
            = (k', v') from by simp [hk]]
      by_cases hx : x = k'
      · subst hx
        simp [lookupA, hk]
      · simp [lookupA, hx, ih]

theorem lookupA_filter (l : List (κ × α)) (p : κ × α → Bool) (x : κ) (v : α)
    (hnd : (l.map Prod.fst).Nodup)
    (h : lookupA (l.filter p) x = some v) : lookupA l x = some v := by
  induction l with
  | nil => simp [lookupA] at h
  | cons hd t ih =>
    obtain ⟨k', v'⟩ := hd
    simp only [List.map_cons, List.nodup_cons] at hnd
    by_cases hp : p (k', v')
    · rw [List.filter_cons_of_pos hp] at h
      by_cases hx : x = k'
      · simpa [lookupA, hx] using h
      · simp only [lookupA, if_neg hx] at h ⊢
        exact ih hnd.2 h
    · rw [List.filter_cons_of_neg hp] at h
      by_cases hx : x = k'
      · subst hx
        have : lookupA t x = some v := ih hnd.2 h
        have hnone : lookupA t x = none :=
          lookupA_not_mem t x (by simpa using hnd.1)
        rw [hnone] at this
        exact absurd this (by simp)
      · simp only [lookupA, if_neg hx]
        exact ih hnd.2 h

theorem lookupA_map_self (l : List κ) (e : κ → α) (x : κ) :
    lookupA (l.map fun i => (i, e i)) x = if x ∈ l then some (e x) else none := by
  induction l with
  | nil => simp [lookupA]
  | cons hd t ih =>
    by_cases hx : x = hd
    · subst hx
      simp [lookupA]
    · simp [lookupA, hx, ih]

end AssocLemmas

/-! ### Store-operation equations -/

theorem addAdToDb_of_some (db : AdDb) (now : ℚ) (link title site : String)
    (adId dp : Option String) (r : AdRecord) (h : lookupA db link = some r) :
    addAdToDb db now link title site adId dp
      = ((false, r.sent_to_telegram),
         dictInsert db link { r with expiry_date := now + DAYS7 }) := by
  unfold addAdToDb
  rw [h]

theorem addAdToDb_of_none (db : AdDb) (now : ℚ) (link title site : String)
    (adId dp : Option String) (h : lookupA db link = none) :
    addAdToDb db now link title site adId dp
      = ((true, false),
         db ++ [(link, ⟨title, adId, site, now, dp, now + DAYS7, false⟩)]) := by
  unfold addAdToDb
  rw [h]

theorem markAdAsSent_lookup (db : AdDb) (link x : String) :
    lookupA (markAdAsSent db link).2 x =
      if x = link then
        (lookupA db x).map (fun r => { r with sent_to_telegram := true })
      else lookupA db x := by
  unfold markAdAsSent
  dsimp only
  exact lookupA_map_update db link x (fun r => { r with sent_to_telegram := true })

theorem markAdAsSent_idem (db : AdDb) (link : String) :
    markAdAsSent (markAdAsSent db link).2 link = markAdAsSent db link := by
  unfold markAdAsSent
  dsimp only
  rw [List.map_map]
  refine congrArg (Prod.mk true) ?_
  apply List.map_congr_left
  intro kv _
  by_cases hk : kv.1 = link <;> simp [Function.comp, hk]

/-- C1: the `sent_to_telegram` flag is write-once-true.  (1) No store
operation (`add_ad_to_db`, `mark_ad_as_sent`, `check_ad_sent`,
`cleanup_old_ads`) turns an existing record whose flag is true into a
record whose flag is false — after any single operation the link either
has no record (a cleanup deletion) or still carries `true`; on a table
with distinct links (its primary-key invariant).  (2) A repeated
`add_ad_to_db` on a stored link returns `(False, previously stored
flag)` and leaves the flag unchanged (only `expiry_date` moves).
(3) `mark_ad_as_sent` is idempotent: it returns `True`, a second call is a
no-op on the table, and after either call the record carries `true`. -/
theorem c1_notified_write_once :
    (∀ (s : StoreState) (op : StoreOp) (link : String) (r r' : AdRecord),
        (s.db.map Prod.fst).Nodup →
        lookupA s.db link = some r → r.sent_to_telegram = true →
        lookupA (applyOp s op).db link = some r' → r'.sent_to_telegram = true)
  ∧ (∀ (db : AdDb) (now : ℚ) (link title site : String) (adId dp : Option String)
        (r : AdRecord), lookupA db link = some r →
        (addAdToDb db now link title site adId dp).1 = (false, r.sent_to_telegram)
      ∧ lookupA (addAdToDb db now link title site adId dp).2 link
          = some { r with expiry_date := now + DAYS7 })
  ∧ (∀ (db : AdDb) (link : String),
        (markAdAsSent db link).1 = true
      ∧ markAdAsSent (markAdAsSent db link).2 link = markAdAsSent db link
      ∧ ∀ r : AdRecord, lookupA db link = some r →
          lookupA (markAdAsSent db link).2 link
            = some { r with sent_to_telegram := true }
        ∧ lookupA (markAdAsSent (markAdAsSent db link).2 link).2 link
            = some { r with sent_to_telegram := true }) := by
  refine ⟨?_, ?_, ?_⟩
  · intro s op link r r' hnd hr hsent hr'
    cases op with
    | add now l t st a d =>
      simp only [applyOp] at hr'
      cases hdb : lookupA s.db l with
      | some r0 =>
        rw [addAdToDb_of_some s.db now l t st a d r0 hdb] at hr'
        dsimp only at hr'
        rw [lookupA_dictInsert] at hr'
        by_cases hl : link = l
        · subst hl
          rw [if_pos rfl] at hr'
          rw [hdb] at hr
          injection hr with hr
          injection hr' with hr'
          rw [← hr']
          dsimp only
          rw [hr, hsent]
        · rw [if_neg hl, hr] at hr'
          injection hr' with hr'
          rw [← hr', hsent]
      | none =>
        rw [addAdToDb_of_none s.db now l t st a d hdb] at hr'
        dsimp only at hr'
        rw [lookupA_append_left s.db _ link r hr] at hr'
        injection hr' with hr'
        rw [← hr', hsent]
    | mark l =>
      simp only [applyOp] at hr'
      rw [markAdAsSent_lookup] at hr'
      by_cases hl : link = l
      · rw [if_pos hl, hr] at hr'
        simp only [Option.map_some'] at hr'
        injection hr' with hr'
        rw [← hr']
      · rw [if_neg hl, hr] at hr'
        injection hr' with hr'
        rw [← hr', hsent]
    | check l =>
      simp only [applyOp] at hr'
      rw [hr] at hr'
      injection hr' with hr'
      rw [← hr', hsent]
    | cleanup now =>
      simp only [applyOp, cleanupOldAds] at hr'
      by_cases hc : now - s.lastCleanup < DAYS7
      · rw [if_pos hc] at hr'
        dsimp only at hr'
        rw [hr] at hr'
        injection hr' with hr'
        rw [← hr', hsent]
      · rw [if_neg hc] at hr'
        dsimp only at hr'
        have := lookupA_filter s.db _ link r' hnd hr'
        rw [hr] at this
        injection this with this
        rw [← this]
        exact hsent
  · intro db now link title site adId dp r hr
    rw [addAdToDb_of_some db now link title site adId dp r hr]
    dsimp only
    constructor
    · rfl
    · rw [lookupA_dictInsert, if_pos rfl]
  · intro db link
    refine ⟨rfl, markAdAsSent_idem db link, ?_⟩
    intro r hr
    constructor
    · rw [markAdAsSent_lookup, if_pos rfl, hr]
      rfl
    · rw [markAdAsSent_idem, markAdAsSent_lookup, if_pos rfl, hr]
      rfl

/-- Witness for C1 at a concrete one-row store. -/
theorem c1_notified_write_once_witness :
    (⟨"t", none, "OLX", 0, none, 100, true⟩ : AdRecord).sent_to_telegram = true
  ∧ (addAdToDb [("l", c1wRec)] 5 "l" "t" "OLX" none none).1 = (false, true)
  ∧ lookupA (markAdAsSent [("l", c1wRec)] "l").2 "l"
      = some { c1wRec with sent_to_telegram := true } := by
  refine ⟨?_, ?_, ?_⟩
  · exact c1_notified_write_once.1 c1wState (.mark "l") "l" c1wRec
      ⟨"t", none, "OLX", 0, none, 100, true⟩ (by decide) (by decide) rfl (by decide)
  · exact (c1_notified_write_once.2.1 [("l", c1wRec)] 5 "l" "t" "OLX" none none
      c1wRec (by decide)).1
  · exact ((c1_notified_write_once.2.2 [("l", c1wRec)] "l").2.2 c1wRec (by decide)).1

/-- C5: `add_ad_to_db` (the spec's `record_if_new`).  Unseen link: a record
with `sent_to_telegram = false` and `expiry_date = now + 7 days` is
appended and `(True, False)` returned.  Seen link: only `expiry_date`
changes (result record and all other rows otherwise untouched) and
`(False, previous flag)` is returned.  The link is present after any call,
and any call on a present link returns `was_new = False` — so every call
after the first returns `False`. -/
theorem c5_record_if_new :
    (∀ (db : AdDb) (now : ℚ) (link title site : String) (adId dp : Option String),
        lookupA db link = none →
        addAdToDb db now link title site adId dp
          = ((true, false),
             db ++ [(link, ⟨title, adId, site, now, dp, now + DAYS7, false⟩)])
      ∧ lookupA (addAdToDb db now link title site adId dp).2 link
          = some ⟨title, adId, site, now, dp, now + DAYS7, false⟩)
  ∧ (∀ (db : AdDb) (now : ℚ) (link title site : String) (adId dp : Option String)
       (r : AdRecord), lookupA db link = some r →
        (addAdToDb db now link title site adId dp).1 = (false, r.sent_to_telegram)
      ∧ lookupA (addAdToDb db now link title site adId dp).2 link
          = some { r with expiry_date := now + DAYS7 }
      ∧ ∀ x, x ≠ link →
          lookupA (addAdToDb db now link title site adId dp).2 x = lookupA db x)
  ∧ (∀ (db : AdDb) (now : ℚ) (link title site : String) (adId dp : Option String),
        lookupA (addAdToDb db now link title site adId dp).2 link ≠ none)
  ∧ (∀ (db : AdDb) (now : ℚ) (link title site : String) (adId dp : Option String),
        lookupA db link ≠ none →
        ((addAdToDb db now link title site adId dp).1).1 = false) := by
  refine ⟨?_, ?_, ?_, ?_⟩
  · intro db now link title site adId dp h
    rw [addAdToDb_of_none db now link title site adId dp h]
    refine ⟨rfl, ?_⟩
    dsimp only
    rw [lookupA_append_right db _ link h]
    simp [lookupA]
  · intro db now link title site adId dp r h
    rw [addAdToDb_of_some db now link title site adId dp r h]
    dsimp only
    refine ⟨rfl, ?_, ?_⟩
    · rw [lookupA_dictInsert, if_pos rfl]
    · intro x hx
      rw [lookupA_dictInsert, if_neg hx]
  · intro db now link title site adId dp
    cases h : lookupA db link with
    | some r =>
      rw [addAdToDb_of_some db now link title site adId dp r h]
      dsimp only
      rw [lookupA_dictInsert, if_pos rfl]
      simp
    | none =>
      rw [addAdToDb_of_none db now link title site adId dp h]
      dsimp only
      rw [lookupA_append_right db _ link h]
      simp [lookupA]
  · intro db now link title site adId dp h
    cases hdb : lookupA db link with
    | some r =>
      rw [addAdToDb_of_some db now link title site adId dp r hdb]
    | none => exact absurd hdb h

/-- Witness for C5 on an empty then one-row store. -/
theorem c5_record_if_new_witness :
    addAdToDb [] 5 "l" "t" "OLX" none none
      = ((true, false), [("l", ⟨"t", none, "OLX", 5, none, 5 + DAYS7, false⟩)])
  ∧ (addAdToDb [("l", c1wRec)] 5 "l" "t" "OLX" none none).1 = (false, true)
  ∧ lookupA (addAdToDb [("l", c1wRec)] 5 "l" "t" "OLX" none none).2 "m"
      = lookupA [("l", c1wRec)] "m"
  ∧ lookupA (addAdToDb [] 5 "l" "t" "OLX" none none).2 "l" ≠ none
  ∧ ((addAdToDb [("l", c1wRec)] 5 "l" "t" "OLX" none none).1).1 = false := by
  refine ⟨?_, ?_, ?_, ?_, ?_⟩
  · exact (c5_record_if_new.1 [] 5 "l" "t" "OLX" none none (by decide)).1
  · exact (c5_record_if_new.2.1 [("l", c1wRec)] 5 "l" "t" "OLX" none none
      c1wRec (by decide)).1
  · exact ((c5_record_if_new.2.1 [("l", c1wRec)] 5 "l" "t" "OLX" none none
      c1wRec (by decide)).2.2) "m" (by decide)
  · exact c5_record_if_new.2.2.1 [] 5 "l" "t" "OLX" none none
  · exact c5_record_if_new.2.2.2 [("l", c1wRec)] 5 "l" "t" "OLX" none none
      (by decide)

/-- C9: `check_ad_sent` on a link with no record returns `None` (falling
off the function body), not `False`; when a record exists it returns the
stored flag as an actual boolean.  Its result type is therefore
`Optional[bool]`, not `bool`. -/
theorem c9_check_sent_option :
    ∀ (db : AdDb) (link : String),
      (lookupA db link = none → checkAdSent db link = none)
    ∧ (∀ r : AdRecord, lookupA db link = some r →
         checkAdSent db link = some r.sent_to_telegram) := by
  intro db link
  constructor
  · intro h
    unfold checkAdSent
    rw [h]
    rfl
  · intro r h
    unfold checkAdSent
    rw [h]
    rfl

/-- Witness for C9: the empty store yields `None`; a stored notified row
yields `Some true`. -/
theorem c9_check_sent_option_witness :
    checkAdSent [] "l" = none ∧ checkAdSent [("l", c1wRec)] "l" = some true := by
  constructor
  · exact (c9_check_sent_option [] "l").1 (by decide)
  · exact (c9_check_sent_option [("l", c1wRec)] "l").2 c1wRec (by decide)

/-- C10: when `extract_ad_id_from_url` yields no identity, `get_cached_ad_age`
neither consults nor writes the publication-date cache: the age is exactly
the freshly parsed value whatever the cache holds, and the cache is
returned unchanged (hence no entry keyed by a null identity ever exists). -/
theorem c10_no_id_no_cache :
    ∀ (cache : StrCache) (url : String) (d : Option String) (nSec : ℚ)
      (now : PyDateTime) (mk : MkDT),
      extractAdIdFromUrl url = none →
      getCachedAdAge cache (extractAdIdFromUrl url) d nSec now mk
        = (parsePolishDate d now mk, cache) := by
  intro cache url d nSec now mk h
  rw [h]
  rfl

/-- Witness for C10 at a URL carrying no `ID…` token. -/
theorem c10_no_id_no_cache_witness :
    extractAdIdFromUrl "https://www.olx.pl/d/oferta/abc" = none
  ∧ getCachedAdAge ([("z", ⟨none, PMin.inf, 0⟩)] : StrCache)
      (extractAdIdFromUrl "https://www.olx.pl/d/oferta/abc") none 0 scNow scMk
      = (parsePolishDate none scNow scMk, ([("z", ⟨none, PMin.inf, 0⟩)] : StrCache)) := by
  refine ⟨by decide, ?_⟩
  exact c10_no_id_no_cache [("z", ⟨none, PMin.inf, 0⟩)]
    "https://www.olx.pl/d/oferta/abc" none 0 scNow scMk (by decide)

/-- C7 counterexample: a candidate whose computed age is exactly 50.0
minutes ("dzisiaj o 11:10" against the 12:00 clock) is not skipped as old:
on an empty store `try_send_from_preview` returns `(sent = True,
is_old = False)` and the ad ends up marked sent — refuting "age exactly
50.0 minutes classifies as SKIP_OLD (is treated as old and not
notified)". -/
theorem c7_boundary_counterexample :
    (trySendFromPreview scEnv [] [] c7Card).1 = (true, false)
  ∧ checkAdSent (trySendFromPreview scEnv [] [] c7Card).2.2 "x" = some true := by
  constructor
  · with_unfolding_all decide
  · with_unfolding_all decide

/-- C7 amended: the old/fresh test of `try_send_from_preview` is
strictly-greater-than (`minutes_ago > MAX_AD_AGE_MINUTES`): whenever the
computed age is known, `is_old` equals `age > 50`; at exactly 50.0 minutes
the comparison is false, so the ad is still treated as fresh (eligible for
notification), not SKIP_OLD. -/
theorem c7_boundary :
    (∀ (env : ScanEnv) (cache : StrCache) (db : AdDb) (p : PreviewData) (a : PMin),
        p.minutes_ago = some a →
        ((trySendCore env cache db p).1).2 = a.gtQ MAX_AD_AGE_MINUTES)
  ∧ (PMin.fin 50).gtQ MAX_AD_AGE_MINUTES = false := by
  constructor
  · intro env cache db p a h
    unfold trySendCore
    rw [h]
    dsimp only
    by_cases hg : a.gtQ MAX_AD_AGE_MINUTES = true
    · rw [if_pos hg, hg]
    · have hg' : a.gtQ MAX_AD_AGE_MINUTES = false := by
        cases hq : a.gtQ MAX_AD_AGE_MINUTES
        · rfl
        · exact absurd hq hg
      rw [if_neg hg, hg']
      by_cases he : checkAdExists db p.link = true
      · rw [if_pos he]
        by_cases hs : (checkAdSent db p.link).getD false = true
        · rw [if_pos hs]
        · rw [if_neg hs]
      · rw [if_neg he]
  · with_unfolding_all decide

/-- Witness for C7 at a preview whose age is exactly 50 minutes. -/
theorem c7_boundary_witness :
    (⟨"x", "t", none, none, none, "OLX", some (PMin.fin 50)⟩
        : PreviewData).minutes_ago = some (PMin.fin 50)
  ∧ ((trySendCore scEnv [] []
        ⟨"x", "t", none, none, none, "OLX", some (PMin.fin 50)⟩).1).2
      = (PMin.fin 50).gtQ MAX_AD_AGE_MINUTES := by
  refine ⟨rfl, ?_⟩
  exact c7_boundary.1 scEnv [] [] _ (PMin.fin 50) rfl

/-- C8: `parse_polish_date` is total in the model (a Lean function), and:
a `None`/empty phrase, a phrase matching none of the four grammar guards,
and a within-grammar parsing failure (such as "dzisiaj o ??") all yield
the `float('inf')` sentinel; an ad whose age is the sentinel is never
classified fresh — `try_send_from_preview` returns `(False, True)` (no
send) and the promoted-branch freshness test `inf <= 50` is false. -/
theorem c8_parse_total_unknown :
    (∀ (s : String) (now : PyDateTime) (mk : MkDT),
        recognizesDateGrammar (trimL (s.data.map Char.toLower)) = false →
        parsePolishDate (some s) now mk = PMin.inf)
  ∧ (∀ (now : PyDateTime) (mk : MkDT), parsePolishDate none now mk = PMin.inf)
  ∧ (∀ (now : PyDateTime) (mk : MkDT), parsePolishDate (some "") now mk = PMin.inf)
  ∧ (∀ (now : PyDateTime) (mk : MkDT),
        parsePolishDate (some "dzisiaj o ??") now mk = PMin.inf)
  ∧ (∀ (env : ScanEnv) (cache : StrCache) (db : AdDb) (p : PreviewData),
        p.minutes_ago = some PMin.inf →
        (trySendCore env cache db p).1 = (false, true))
  ∧ PMin.inf.leQ MAX_AD_AGE_MINUTES = false := by
  refine ⟨?_, ?_, ?_, ?_, ?_, ?_⟩
  · intro s now mk h
    simp only [recognizesDateGrammar, Bool.or_eq_false_iff] at h
    obtain ⟨⟨⟨h1, h2⟩, ⟨h3a, h3b⟩⟩, h4⟩ := h
    unfold parsePolishDate
    dsimp only
    by_cases hd : s.data = []
    · rw [if_pos hd]
    · rw [if_neg hd]
      unfold parseCore
      rw [h1, h2, h3a, h3b, h4]
      rfl
  · intro now mk
    rfl
  · intro now mk
    rfl
  · intro now mk
    with_unfolding_all rfl
  · intro env cache db p h
    unfold trySendCore
    rw [h]
    rfl
  · rfl

/-- Witness for C8 at the unrecognized phrase "foo" and an unknown-age
preview. -/
theorem c8_parse_total_unknown_witness :
    recognizesDateGrammar (trimL ("foo".data.map Char.toLower)) = false
  ∧ parsePolishDate (some "foo") scNow scMk = PMin.inf
  ∧ (trySendCore scEnv [] [] ⟨"x", "t", none, none, none, "OLX", some PMin.inf⟩).1
      = (false, true) := by
  refine ⟨by decide, ?_, ?_⟩
  · exact c8_parse_total_unknown.1 "foo" scNow scMk (by decide)
  · exact c8_parse_total_unknown.2.2.2.2.1 scEnv [] [] _ rfl

/-- C3 counterexample: on candidates aged [5, 200, 200, 200, 5] minutes
the scan notifies position 0 and then stops after position 1 — the first
old classification (`EARLY_EXIT_ON_OLD` is `True`) — so the iterating loop
examines exactly positions 0 and 1; position 2 (which the claim says is
evaluated) and position 3 are never reached.  This refutes "iteration
stops only after 3 consecutive old classifications, not before". -/
theorem c3_early_exit_counterexample :
    c3Scan.evalLog = [0, 1]
  ∧ 2 ∉ c3Scan.evalLog
  ∧ 4 ∉ c3Scan.evalLog
  ∧ checkAdSent c3Scan.db "a" = some true := by
  refine ⟨?_, ?_, ?_, ?_⟩
  · with_unfolding_all decide
  · with_unfolding_all decide
  · with_unfolding_all decide
  · with_unfolding_all decide

/-- C3 amended: because `EARLY_EXIT_ON_OLD = True`, the candidate loop of
`quick_check_ads` stops at the first old classification of a regular card
(the 3-consecutive threshold is never what fires): processing a
non-promoted card whose `try_send_from_preview` says `is_old` ignores all
remaining candidates.  For ages [5, 200, 200, 200, 5] the scan notifies
position 0, evaluates position 1, stops there, and never evaluates
positions 2–4. -/
theorem c3_early_exit :
    (∀ (env : ScanEnv) (idx : Nat) (s : ScanState) (c : RawCard)
       (rest : List RawCard),
        c.promoted = false →
        ((trySendFromPreview env s.cache s.db c).1).2 = true →
        processCards env idx s (c :: rest) = processCards env idx s [c])
  ∧ c3Scan.evalLog = [0, 1]
  ∧ c3Scan.sent_count = 1
  ∧ checkAdSent c3Scan.db "a" = some true := by
  refine ⟨?_, ?_, ?_, ?_⟩
  · intro env idx s c rest hp ho
    simp [processCards, hp, ho, EARLY_EXIT_ON_OLD]
  · with_unfolding_all decide
  · with_unfolding_all decide
  · with_unfolding_all decide

/-- Witness for C3: a 200-minute-old regular card stops the loop whatever
follows it. -/
theorem c3_early_exit_witness :
    (mkCard "b" "dzisiaj o 08:40").promoted = false
  ∧ ((trySendFromPreview scEnv
        (⟨[], [], 0, 0, 0, false, []⟩ : ScanState).cache
        (⟨[], [], 0, 0, 0, false, []⟩ : ScanState).db
        (mkCard "b" "dzisiaj o 08:40")).1).2 = true
  ∧ processCards scEnv 1 ⟨[], [], 0, 0, 0, false, []⟩
      [mkCard "b" "dzisiaj o 08:40", mkCard "c" "dzisiaj o 08:40"]
      = processCards scEnv 1 ⟨[], [], 0, 0, 0, false, []⟩
          [mkCard "b" "dzisiaj o 08:40"] := by
  refine ⟨rfl, by with_unfolding_all decide, ?_⟩
  exact c3_early_exit.1 scEnv 1 ⟨[], [], 0, 0, 0, false, []⟩
    (mkCard "b" "dzisiaj o 08:40") [mkCard "c" "dzisiaj o 08:40"]
    rfl (by with_unfolding_all decide)

/-- C4 counterexample: six promoted cards, all 200 minutes old.  The
prescan safeguard does not fire (nothing fresh in front), so positions 0–1
are skipped and the loop walks positions 2–5: it examines four promoted
cards — more than 3 — because `promo_processed` advances only on a
successful promoted send and an old promoted ad is examined without
counting.  This refutes "at most 3 promoted ads are evaluated per scan,
regardless of their freshness". -/
theorem c4_promo_cap_counterexample :
    c4Cards.all (·.promoted) = true
  ∧ c4Scan.evalLog = [2, 3, 4, 5]
  ∧ c4Scan.evalLog.length = 4
  ∧ c4Scan.promo_processed = 0 := by
  refine ⟨?_, ?_, ?_, ?_⟩
  · with_unfolding_all decide
  · with_unfolding_all decide
  · with_unfolding_all decide
  · with_unfolding_all decide

/-- C4 amended: the promoted cap bounds promoted *sends*, not promoted
evaluations: `promo_processed` (which only successful promoted sends
advance) never exceeds `MAX_PROMO_TO_CHECK = 3` in a scan, and once it has
reached 3 every further promoted card is skipped without evaluation (the
loop state does not change).  Promoted ads that are merely examined and
found old are not counted. -/
theorem c4_promo_cap :
    (∀ (env : ScanEnv) (idx : Nat) (s : ScanState) (cards : List RawCard),
        s.promo_processed ≤ MAX_PROMO_TO_CHECK →
        (processCards env idx s cards).promo_processed ≤ MAX_PROMO_TO_CHECK)
  ∧ (∀ (env : ScanEnv) (idx : Nat) (s : ScanState) (c : RawCard)
       (rest : List RawCard),
        c.promoted = true → s.promo_processed ≥ MAX_PROMO_TO_CHECK →
        processCards env idx s (c :: rest) = processCards env (idx + 1) s rest) := by
  constructor
  · intro env idx s cards
    induction cards generalizing idx s with
    | nil =>
      intro h
      simpa [processCards] using h
    | cons c rest ih =>
      intro h
      simp only [processCards]
      by_cases hp : c.promoted = true
      · rw [if_pos hp]
        by_cases hq : s.promo_processed ≥ MAX_PROMO_TO_CHECK
        · rw [if_pos hq]
          exact ih (idx + 1) s h
        · rw [if_neg hq]
          have hlt : s.promo_processed < MAX_PROMO_TO_CHECK := by omega
          apply ih
          repeat' split
          all_goals dsimp only
          all_goals first
            | exact h
            | exact hlt
      · rw [if_neg hp]
        repeat' split
        all_goals first
          | (dsimp only; exact h)
          | (apply ih
             dsimp only
             exact h)
  · intro env idx s c rest hp hq
    simp only [processCards]
    rw [if_pos hp, if_pos hq]

/-- Witness for C4: the sent-cap invariant on the six-promoted scenario,
and skip-without-evaluation at a saturated counter. -/
theorem c4_promo_cap_witness :
    (processCards scEnv 0 ⟨[], [], 0, 0, 0, false, []⟩ c4Cards).promo_processed
      ≤ MAX_PROMO_TO_CHECK
  ∧ (mkPromoCard "p" "dzisiaj o 08:40").promoted = true
  ∧ processCards scEnv 0 ⟨[], [], 0, 0, 3, false, []⟩
      [mkPromoCard "p" "dzisiaj o 08:40"]
      = processCards scEnv 1 ⟨[], [], 0, 0, 3, false, []⟩ [] := by
  refine ⟨?_, rfl, ?_⟩
  · exact c4_promo_cap.1 scEnv 0 ⟨[], [], 0, 0, 0, false, []⟩ c4Cards (by decide)
  · exact c4_promo_cap.2 scEnv 0 ⟨[], [], 0, 0, 3, false, []⟩
      (mkPromoCard "p" "dzisiaj o 08:40") [] rfl (by decide)

/-- C2 counterexample: the claim "the read of the sent flag and the write
setting it execute inside one critical section, so each link is delivered
at most once" is false on the code: `check_ad_sent` runs in
`try_send_from_preview` with no lock held, and only the
`mark_ad_as_sent` call inside `send_to_telegram` takes the lock.  In the
interleaving where both scans check before either acquires the lock, both
observe "not yet notified" and both deliver the same link. -/
theorem c2_atomic_check_mark_counterexample :
    ¬ (∀ sched : List (Fin 2),
        ¬ ((raceRun raceInit sched).thread0.observed = some false
         ∧ (raceRun raceInit sched).thread1.observed = some false
         ∧ (raceRun raceInit sched).delivered0 = true
         ∧ (raceRun raceInit sched).delivered1 = true)) := by
  intro hcl
  exact hcl raceSched (by decide)

/-- C2 amended: only the `mark_ad_as_sent` write runs inside the lock's
critical section; `check_ad_sent` runs before it with no lock held, so the
check-then-mark pair is not atomic.  Under the both-check-first schedule,
both scans observe `sent = False`, both mark (the flag does end up true,
with the lock free again) and both deliver — the same link is delivered
once per concurrent scan, not at most once. -/
theorem c2_lock_scope_mark_only :
    (raceRun raceInit raceSched).thread0.observed = some false
  ∧ (raceRun raceInit raceSched).thread1.observed = some false
  ∧ (raceRun raceInit raceSched).delivered0 = true
  ∧ (raceRun raceInit raceSched).delivered1 = true
  ∧ (raceRun raceInit raceSched).sent = true
  ∧ (raceRun raceInit raceSched).lockOwner = none := by
  refine ⟨?_, ?_, ?_, ?_, ?_, ?_⟩ <;> decide

/-! ### The eviction proof -/

theorem insEntry_cons_of_lt {κ : Type} (x y : κ × CacheEntry)
    (ys : List (κ × CacheEntry)) (h : x.2.last_check_time < y.2.last_check_time) :
    insEntry x (y :: ys) = x :: y :: ys := by
  simp [insEntry, h]

/-- Python's stable sort is the identity on a strictly ascending list. -/
theorem sortByTime_sorted_id {κ : Type} (l : List (κ × CacheEntry))
    (h : l.Pairwise (fun a b => a.2.last_check_time < b.2.last_check_time)) :
    sortByTime l = l := by
  induction l with
  | nil => rfl
  | cons a l ih =>
    rw [List.pairwise_cons] at h
    have hs : sortByTime (a :: l) = insEntry a (sortByTime l) := rfl
    rw [hs, ih h.2]
    cases l with
    | nil => rfl
    | cons b t => exact insEntry_cons_of_lt a b t (h.1 b (by simp))

/-- Unrolling one insertion of the eviction scenario. -/
theorem c6Cache_succ (n : Nat) : c6Cache (n + 1) = c6Step (c6Cache n) n := by
  unfold c6Cache
  rw [List.range_succ, List.foldl_append]
  rfl

/-- After `k ≤ 1000` insertions of fresh identities no eviction has
happened: the cache is the insertion sequence itself. -/
theorem c6Cache_eq : ∀ k, k ≤ 1000 →
    c6Cache k = (List.range k).map (fun i => (i, c6Entry i)) := by
  intro k
  induction k with
  | zero => intro _; rfl
  | succ k ih =>
    intro hk
    have hk' : k ≤ 1000 := Nat.le_of_succ_le hk
    rw [c6Cache_succ k, ih hk']
    have hmiss : lookupA ((List.range k).map (fun i => (i, c6Entry i))) k = none := by
      rw [lookupA_map_self]
      simp
    unfold c6Step getCachedAdAge
    simp only [hmiss]
    rw [dictInsert_absent _ _ _ hmiss]
    have hlen : (((List.range k).map (fun i => (i, c6Entry i)))
        ++ [(k, (⟨none, parsePolishDate none scNow scMk, (k : ℚ)⟩ : CacheEntry))]).length
        = k + 1 := by
      simp
    rw [if_neg (by rw [hlen]; unfold MAX_CACHE_SIZE; omega)]
    rw [List.range_succ, List.map_append]
    rfl

/-- Appending the freshly inserted identity `k` extends the insertion
sequence. -/
theorem c6_insert_snoc (k : Nat) :
    ((List.range k).map (fun i => (i, c6Entry i)))
      ++ [(k, (⟨none, parsePolishDate none scNow scMk, (k : ℚ)⟩ : CacheEntry))]
      = (List.range (k + 1)).map (fun i => (i, c6Entry i)) := by
  rw [List.range_succ, List.map_append]
  rfl

/-- The 1001st insertion evicts exactly the 200 oldest identities: the
final cache is the insertion sequence restricted to identities
`200, …, 1000`. -/
theorem c6Cache_final :
    c6Cache 1001
      = ((List.range 801).map (fun j => 200 + j)).map (fun i => (i, c6Entry i)) := by
  rw [c6Cache_succ 1000, c6Cache_eq 1000 (by omega)]
  have hmiss : lookupA ((List.range 1000).map (fun i => (i, c6Entry i))) 1000 = none := by
    rw [lookupA_map_self]
    simp
  unfold c6Step getCachedAdAge
  simp only [hmiss]
  rw [dictInsert_absent _ _ _ hmiss]
  rw [c6_insert_snoc 1000]
  have hlen : ((List.range 1001).map (fun i => (i, c6Entry i))).length = 1001 := by
    simp
  rw [if_pos (by rw [hlen]; unfold MAX_CACHE_SIZE; omega)]
  unfold evictOldest
  have hpw : ((List.range 1001).map (fun i => (i, c6Entry i))).Pairwise
      (fun a b => a.2.last_check_time < b.2.last_check_time) := by
    rw [List.pairwise_map]
    apply (List.pairwise_lt_range 1001).imp
    intro i j hij
    simpa [c6Entry] using hij
  rw [sortByTime_sorted_id _ hpw]
  have hcnt : MAX_CACHE_SIZE * 2 / 10 = 200 := by
    unfold MAX_CACHE_SIZE
    omega
  rw [hcnt]
  rw [← List.map_take, List.take_range]
  have hmin : min 200 1001 = 200 := by omega
  rw [hmin]
  have hkeys : ((List.range 200).map (fun i => (i, c6Entry i))).map Prod.fst
      = List.range 200 := by
    rw [List.map_map]
    exact List.map_id' _
  rw [hkeys]
  rw [List.filter_map]
  have hsplit : List.range 1001 = List.range 200 ++ (List.range 801).map (200 + ·) := by
    have : (1001 : Nat) = 200 + 801 := by omega
    rw [this, List.range_add]
  rw [hsplit, List.filter_append]
  have hlo : (List.range 200).filter
      ((fun kv : Nat × CacheEntry => decide (kv.1 ∉ List.range 200))
        ∘ (fun i => (i, c6Entry i))) = [] := by
    apply List.filter_eq_nil_iff.mpr
    intro a ha
    simp only [Function.comp, decide_eq_true_eq, not_not]
    simpa using ha
  have hhi : ((List.range 801).map (200 + ·)).filter
      ((fun kv : Nat × CacheEntry => decide (kv.1 ∉ List.range 200))
        ∘ (fun i => (i, c6Entry i))) = (List.range 801).map (200 + ·) := by
    apply List.filter_eq_self.mpr
    intro a ha
    simp only [Function.comp, decide_eq_true_eq]
    simp only [List.mem_map, List.mem_range] at ha
    obtain ⟨j, _, rfl⟩ := ha
    simp only [List.mem_range]
    omega
  rw [hlo, hhi]
  rw [List.nil_append]

/-- C6: inserting 1001 distinct identities into the capacity-1000 cache in
strictly increasing `last_check_time` order triggers one eviction pass that
removes exactly the oldest `int(1000 * 0.2) = 200` entries — the 200
identities lowest by insertion order are absent afterwards, every identity
from the 201st on (in particular the most recent 800) is still present,
and exactly 801 entries remain. -/
theorem c6_cache_eviction :
    (c6Cache 1001).length = 801
  ∧ ∀ i : Nat,
      (i < 200 → lookupA (c6Cache 1001) i = none)
    ∧ (200 ≤ i → i < 1001 → (lookupA (c6Cache 1001) i).isSome = true) := by
  rw [c6Cache_final]
  constructor
  · simp
  · intro i
    constructor
    · intro hi
      rw [lookupA_map_self]
      have hnot : i ∉ (List.range 801).map (fun j => 200 + j) := by
        simp only [List.mem_map, List.mem_range]
        rintro ⟨j, _, rfl⟩
        omega
      rw [if_neg hnot]
    · intro h1 h2
      rw [lookupA_map_self]
      have hmem : i ∈ (List.range 801).map (fun j => 200 + j) := by
        simp only [List.mem_map, List.mem_range]
        exact ⟨i - 200, by omega, by omega⟩
      rw [if_pos hmem]
      rfl

/-- Witness for C6 at identity 5 (evicted) and identity 500 (retained). -/
theorem c6_cache_eviction_witness :
    lookupA (c6Cache 1001) 5 = none
  ∧ (lookupA (c6Cache 1001) 500).isSome = true := by
  constructor
  · exact (c6_cache_eviction.2 5).1 (by decide)
  · exact (c6_cache_eviction.2 500).2 (by decide) (by decide)
